import Mathlib

/-!
Verification of the adapter-proxy / secret-store core of the repository.

The development shallowly embeds the Python sources:
  * `secure_mcp/store.py`            — class `SecureStore` (`put`, `get`);
  * `nginx/litellm-to-openwebui-proxy.py` — the `call_tool` route handler
    (body normalization, Authorization forwarding) and `_get_auth_key`;
  * `nginx/vault.py`                 — class `VaultClient` (`_req`,
    `detect_kv_version`, `get_kv`).

Python dictionaries are embedded as association lists queried through
`alookup` (first binding wins, as an in-place-updated dict observed through
lookup), Python sets of strings as duplicate-free-enough `List String`
observed through membership, and JSON values (the result of `json.loads`)
as the inductive type `Json`.  String values stay Lean `String`s except in
`_get_auth_key`, whose whitespace handling is modelled character by
character on `List Char`.
-/

/-- JSON values as produced by `json.loads`: objects keep their key order
and have distinct keys. -/
inductive Json where
  | null : Json
  | bool (b : Bool) : Json
  | num (n : Int) : Json
  | str (s : String) : Json
  | arr (elems : List Json) : Json
  | obj (fields : List (String × Json)) : Json

/-- Lookup in an association list embedding a Python `dict`: the most
recent binding (written first) wins. -/
def alookup {α : Type} : List (String × α) → String → Option α
  | [], _ => none
  | (k, v) :: rest, key => if key = k then some v else alookup rest key

/-- Assignment `d[k] = v` on a dict: a fresh binding shadowing any previous one. -/
def ainsert {α : Type} (l : List (String × α)) (key : String) (v : α) :
    List (String × α) :=
  (key, v) :: l

/-- Insertion `s.add(x)` on a Python set of strings. -/
def sadd (gs : List String) (g : String) : List String :=
  if g ∈ gs then gs else g :: gs

/-! ## `secure_mcp/store.py` -/

/-- The state of class `SecureStore`: `self.store : Dict[str, str]` and
`self.groups : Dict[str, Set[str]]`. -/
structure SecureStore where
  store : List (String × String)
  groups : List (String × List String)

/-- Constructor `SecureStore.__init__`: both dicts start empty. -/
def SecureStore.empty : SecureStore := ⟨[], []⟩

/-- Python expression `self.groups.get(key, set())`. -/
def SecureStore.groupsGet (s : SecureStore) (key : String) : List String :=
  (alookup s.groups key).getD []

/-- The dict returned by `SecureStore.put`:
`{"status": ..., "key": key, "group": group}`. -/
structure PutResult where
  status : String
  key : String
  group : String
deriving DecidableEq

/-- The dict returned by `SecureStore.get`: either
`{"status": "success", "key", "value", "group"}` or
`{"status": "error", "message"}`. -/
inductive GetResult where
  | success (key value group : String) : GetResult
  | error (message : String) : GetResult
deriving DecidableEq

/-- Method `SecureStore.put` (store.py lines 9–20). -/
def SecureStore.put (s : SecureStore) (key value group : String) :
    PutResult × SecureStore :=
  if (alookup s.store key).isSome = true ∧ group ∈ s.groupsGet key then
    ({ status := "updated", key := key, group := group },
     { s with store := ainsert s.store key value })
  else
    let groups' :=
      match alookup s.groups key with
      | some gs => ainsert s.groups key (sadd gs group)
      | none => ainsert s.groups key [group]
    ({ status := "created", key := key, group := group },
     { store := ainsert s.store key value, groups := groups' })

/-- Method `SecureStore.get` (store.py lines 22–27). -/
def SecureStore.get (s : SecureStore) (key group : String) : GetResult :=
  match alookup s.store key with
  | none => GetResult.error ("Key \x27" ++ key ++ "\x27 not found")
  | some v =>
    if group ∈ s.groupsGet key then GetResult.success key v group
    else GetResult.error ("Group " ++ group ++ " does not contain key " ++ key)

/-- The store operations a caller of the tool server can perform. -/
inductive StoreOp where
  | put (key value group : String) : StoreOp
  | get (key group : String) : StoreOp

/-- State reached after one operation (`get` does not mutate). -/
def SecureStore.applyOp (s : SecureStore) : StoreOp → SecureStore
  | StoreOp.put k v g => (s.put k v g).2
  | StoreOp.get _ _ => s

/-- State reached from the empty store by a sequence of operations. -/
def SecureStore.runOps (ops : List StoreOp) : SecureStore :=
  ops.foldl SecureStore.applyOp SecureStore.empty

/-- The store invariant stated in the spec: a key is in the value map iff its
owning-group set exists and is non-empty. -/
def SecureStore.inv (s : SecureStore) : Prop :=
  ∀ k : String, (alookup s.store k).isSome = true ↔
    ∃ gs, alookup s.groups k = some gs ∧ gs ≠ []

/-! ### Store lemmas -/

theorem alookup_ainsert {α : Type} (l : List (String × α)) (k : String) (v : α) :
    alookup (ainsert l k v) k = some v := by
  simp [ainsert, alookup]

theorem alookup_ainsert_ne {α : Type} (l : List (String × α)) (k k' : String)
    (v : α) (h : k' ≠ k) : alookup (ainsert l k v) k' = alookup l k' := by
  simp [ainsert, alookup, h]

theorem mem_sadd (gs : List String) (g : String) : g ∈ sadd gs g := by
  unfold sadd
  split
  · assumption
  · exact List.mem_cons_self g gs

theorem sadd_ne_nil (gs : List String) (g : String) : sadd gs g ≠ [] := by
  intro h
  have := mem_sadd gs g
  rw [h] at this
  exact List.not_mem_nil g this

theorem groupsGet_some (s : SecureStore) (k : String) (g : String)
    (h : g ∈ s.groupsGet k) : ∃ gs, alookup s.groups k = some gs ∧ gs ≠ [] := by
  unfold SecureStore.groupsGet at h
  cases hg : alookup s.groups k with
  | none => rw [hg] at h; simp at h
  | some gs =>
    rw [hg] at h
    simp at h
    exact ⟨gs, rfl, by intro hnil; rw [hnil] at h; exact List.not_mem_nil g h⟩

/-- C2: `put` returns `"updated"` iff the key existed and the group already
owned it; otherwise `"created"`; in all cases the value is overwritten and
the group owns the key afterwards. -/
theorem secure_store_put_contract (s : SecureStore) (k v g : String) :
    ((s.put k v g).1.status = "updated" ↔
      (alookup s.store k).isSome = true ∧ g ∈ s.groupsGet k) ∧
    ((s.put k v g).1.status = "created" ↔
      ¬ ((alookup s.store k).isSome = true ∧ g ∈ s.groupsGet k)) ∧
    alookup (s.put k v g).2.store k = some v ∧
    g ∈ (s.put k v g).2.groupsGet k := by
  unfold SecureStore.put
  split
  case isTrue h =>
    refine ⟨⟨fun _ => h, fun _ => rfl⟩,
      ⟨fun hc => absurd (show ("updated" : String) = "created" from hc) (by decide),
       fun hc => absurd h hc⟩,
      alookup_ainsert _ _ _, h.2⟩
  case isFalse h =>
    refine ⟨⟨fun hc => absurd (show ("created" : String) = "updated" from hc) (by decide),
       fun hc => absurd hc h⟩,
      ⟨fun _ => h, fun _ => rfl⟩, alookup_ainsert _ _ _, ?_⟩
    unfold SecureStore.groupsGet
    cases hg : alookup s.groups k with
    | none => simp [hg, alookup_ainsert]
    | some gs => simp [hg, alookup_ainsert, mem_sadd]

/-- C3: the only error results `get` can produce are the not-found message
and the wrong-group message, produced in exactly those situations. -/
theorem secure_store_get_errors (s : SecureStore) (k g : String) :
    (alookup s.store k = none →
      s.get k g = GetResult.error ("Key \x27" ++ k ++ "\x27 not found")) ∧
    (∀ v, alookup s.store k = some v → g ∉ s.groupsGet k →
      s.get k g = GetResult.error ("Group " ++ g ++ " does not contain key " ++ k)) ∧
    (∀ msg, s.get k g = GetResult.error msg →
      msg = "Key \x27" ++ k ++ "\x27 not found" ∨
      msg = "Group " ++ g ++ " does not contain key " ++ k) := by
  refine ⟨fun h => by simp [SecureStore.get, h], fun v hv hg => by simp [SecureStore.get, hv, hg],
    fun msg hmsg => ?_⟩
  unfold SecureStore.get at hmsg
  cases hv : alookup s.store k with
  | none => rw [hv] at hmsg; exact Or.inl (GetResult.error.inj hmsg).symm
  | some v =>
    rw [hv] at hmsg
    by_cases hg : g ∈ s.groupsGet k
    · simp [hg] at hmsg
    · simp only [hg, if_neg, if_false] at hmsg
      exact Or.inr (GetResult.error.inj hmsg).symm

/-- C3 witness: on the empty store, `get` yields the not-found message. -/
theorem secure_store_get_errors_witness :
    SecureStore.get SecureStore.empty "k" "g" =
      GetResult.error ("Key \x27k\x27 not found") :=
  (secure_store_get_errors SecureStore.empty "k" "g").1 rfl

/-- C4: from any state, `put(k, v, g)` immediately followed by
`get(k, g)` succeeds and returns `v`. -/
theorem secure_store_put_then_get (s : SecureStore) (k v g : String) :
    ((s.put k v g).2).get k g = GetResult.success k v g := by
  unfold SecureStore.put
  split
  case isTrue h =>
    simp [SecureStore.get, SecureStore.groupsGet, alookup_ainsert]
    have := h.2
    unfold SecureStore.groupsGet at this
    simp [SecureStore.get, alookup_ainsert, this]
  case isFalse h =>
    cases hg : alookup s.groups k with
    | none =>
      simp [hg, SecureStore.get, SecureStore.groupsGet, alookup_ainsert]
    | some gs =>
      simp [hg, SecureStore.get, SecureStore.groupsGet, alookup_ainsert, mem_sadd]

theorem inv_empty : SecureStore.empty.inv := by
  intro k
  simp [SecureStore.empty, alookup]

theorem inv_put (s : SecureStore) (k v g : String) (h : s.inv) :
    ((s.put k v g).2).inv := by
  intro k'
  unfold SecureStore.put
  by_cases hk : k' = k
  · subst hk
    split
    next hc =>
      simp only [alookup_ainsert, Option.isSome_some, true_iff]
      exact groupsGet_some s k' g hc.2
    next hc =>
      simp only [alookup_ainsert, Option.isSome_some, true_iff]
      cases hg : alookup s.groups k' with
      | none => exact ⟨[g], by simp [hg, alookup_ainsert], by simp⟩
      | some gs => exact ⟨sadd gs g, by simp [hg, alookup_ainsert], sadd_ne_nil gs g⟩
  · split
    next hc =>
      simpa [alookup_ainsert_ne _ _ _ _ hk] using h k'
    next hc =>
      cases hg : alookup s.groups k with
      | none =>
        simpa [alookup_ainsert_ne _ _ _ _ hk, hg] using h k'
      | some gs =>
        simpa [alookup_ainsert_ne _ _ _ _ hk, hg] using h k'

theorem inv_applyOp (s : SecureStore) (op : StoreOp) (h : s.inv) :
    (s.applyOp op).inv := by
  cases op with
  | put k v g => exact inv_put s k v g h
  | get k g => exact h

theorem inv_foldl (ops : List StoreOp) :
    ∀ s : SecureStore, s.inv → (ops.foldl SecureStore.applyOp s).inv := by
  induction ops with
  | nil => exact fun s h => h
  | cons op rest ih => exact fun s h => ih _ (inv_applyOp s op h)

/-- C5: every state reachable from the empty store by `put`/`get`
operations satisfies the key/owning-group invariant. -/
theorem secure_store_reachable_inv (ops : List StoreOp) :
    (SecureStore.runOps ops).inv :=
  inv_foldl ops SecureStore.empty inv_empty

/-! ## `nginx/litellm-to-openwebui-proxy.py` — body normalization in
`call_tool` (lines 222–250) -/

/-- Python `str.startswith`, used on the Content-Type header. -/
def pyStartsWith (s pre : String) : Bool :=
  pre.toList.isPrefixOf s.toList

/-- Lines 224–234 of `call_tool`: `body_json` is the parsed body when the
Content-Type starts with `application/json` and the body is non-empty and
`json.loads` yields a dict; otherwise it stays `None` (parse errors are
logged and swallowed).  `parseResult` stands for the outcome of
`json.loads(body_bytes.decode("utf-8"))`, `none` meaning it raised. -/
def computeBodyJson (contentType bodyBytes : String)
    (parseResult : Option Json) : Option (List (String × Json)) :=
  if pyStartsWith contentType "application/json" = true ∧ bodyBytes ≠ "" then
    match parseResult with
    | some (Json.obj fields) => some fields
    | _ => none
  else none

/-- Check `isinstance(body_json["arguments"], dict)` on an optional value. -/
def isJsonObj : Option Json → Bool
  | some (Json.obj _) => true
  | _ => false

/-- Lines 236–250 of `call_tool`: build the payload forwarded to LiteLLM
from the path-derived `tool_id` and the parsed (or absent) body. -/
def buildPayload (tool_id : String) (body_json : Option (List (String × Json))) :
    List (String × Json) :=
  match body_json with
  | none => [("name", Json.str tool_id), ("arguments", Json.obj [])]
  | some fields =>
    if (alookup fields "name").isSome && (alookup fields "arguments").isSome then
      fields
    else if isJsonObj (alookup fields "arguments") then
      [("name", (alookup fields "name").getD (Json.str tool_id)),
       ("arguments", (alookup fields "arguments").getD (Json.obj []))]
    else
      [("name", Json.str tool_id), ("arguments", Json.obj fields)]

/-- The payload `call_tool` sends upstream, as a function of the inbound
request pieces. -/
def call_tool_payload (tool_id contentType bodyBytes : String)
    (parseResult : Option Json) : List (String × Json) :=
  buildPayload tool_id (computeBodyJson contentType bodyBytes parseResult)

/-- C6: a JSON body containing both `name` and `arguments` is forwarded
unchanged, whatever the path-derived tool identifier. -/
theorem call_tool_body_with_name_and_arguments_unchanged
    (tool_id contentType bodyBytes : String) (parseResult : Option Json)
    (fields : List (String × Json))
    (hct : pyStartsWith contentType "application/json" = true)
    (hbb : bodyBytes ≠ "")
    (hpr : parseResult = some (Json.obj fields))
    (hname : (alookup fields "name").isSome = true)
    (hargs : (alookup fields "arguments").isSome = true) :
    call_tool_payload tool_id contentType bodyBytes parseResult = fields := by
  unfold call_tool_payload computeBodyJson
  rw [if_pos ⟨hct, hbb⟩, hpr]
  simp [buildPayload, hname, hargs]

/-- C6 witness at a concrete request. -/
theorem call_tool_body_with_name_and_arguments_unchanged_witness :
    call_tool_payload "some/other/tool" "application/json" "body"
      (some (Json.obj [("name", Json.str "t"), ("arguments", Json.obj [])])) =
      [("name", Json.str "t"), ("arguments", Json.obj [])] :=
  call_tool_body_with_name_and_arguments_unchanged
    "some/other/tool" "application/json" "body" _ _
    (by decide) (by decide) rfl rfl rfl

/-- C10: when the Content-Type does not start with `application/json`, or
the body is empty, the body is never parsed and the payload is the default
`{name: tool_id, arguments: {}}` — even if the bytes would parse to a JSON
object. -/
theorem call_tool_non_json_content_type_ignores_body
    (tool_id contentType bodyBytes : String) (parseResult : Option Json)
    (h : pyStartsWith contentType "application/json" = false ∨ bodyBytes = "") :
    call_tool_payload tool_id contentType bodyBytes parseResult =
      [("name", Json.str tool_id), ("arguments", Json.obj [])] := by
  unfold call_tool_payload computeBodyJson
  rw [if_neg]
  · rfl
  · intro hc
    cases h with
    | inl h1 => rw [hc.1] at h1; exact Bool.noConfusion h1
    | inr h2 => exact hc.2 h2

/-- C10 witness: a `text/plain` request whose bytes are a valid JSON object
with both keys still yields the default payload. -/
theorem call_tool_non_json_content_type_ignores_body_witness :
    call_tool_payload "tool-x" "text/plain" "body"
      (some (Json.obj [("name", Json.str "t"), ("arguments", Json.obj [])])) =
      [("name", Json.str "tool-x"), ("arguments", Json.obj [])] :=
  call_tool_non_json_content_type_ignores_body "tool-x" "text/plain" "body" _
    (Or.inl (by decide))

/-- The ToolInvocation invariant stated in the spec, as a decidable check on a payload:
`name` maps to a non-empty string and `arguments` to a JSON object. -/
def payloadInvariant (p : List (String × Json)) : Bool :=
  (match alookup p "name" with
   | some (Json.str s) => decide (s ≠ "")
   | _ => false) &&
  (match alookup p "arguments" with
   | some (Json.obj _) => true
   | _ => false)

/-- Whether `body_json` contains both a `name` and an `arguments` key (the rule-2
shape forwarded verbatim). -/
def hasNameAndArguments (fields : List (String × Json)) : Bool :=
  (alookup fields "name").isSome && (alookup fields "arguments").isSome

/-- C7 counterexample, both failure modes: a JSON body carrying both keys
is forwarded verbatim, so `name` can be the empty string and `arguments` a
number; and a bodyless request for the empty path identifier (reachable as
`POST /mcp-rest/tools/call/`) copies the empty identifier into `name`. -/
theorem call_tool_payload_invariant_counterexample :
    payloadInvariant
      (call_tool_payload "tool-x" "application/json" "body"
        (some (Json.obj [("name", Json.str ""), ("arguments", Json.num 7)]))) =
      false ∧
    payloadInvariant (call_tool_payload "" "text/plain" "" none) = false := by
  exact ⟨rfl, rfl⟩

/-- C7 amended: for every request whose path identifier is non-empty and
whose body is not taken verbatim (it does not parse to a JSON object
holding both `name` and `arguments`), the normalized payload has a
non-empty string `name` and an object-shaped `arguments`. -/
theorem call_tool_payload_invariant_amended
    (tool_id contentType bodyBytes : String) (parseResult : Option Json)
    (htool : tool_id ≠ "")
    (hnotverbatim : ∀ fields,
      computeBodyJson contentType bodyBytes parseResult = some fields →
      hasNameAndArguments fields = false) :
    payloadInvariant
      (call_tool_payload tool_id contentType bodyBytes parseResult) = true := by
  unfold call_tool_payload
  cases hbj : computeBodyJson contentType bodyBytes parseResult with
  | none =>
    simp [buildPayload, payloadInvariant, alookup, htool]
  | some fields =>
    have hboth := hnotverbatim fields hbj
    rw [hasNameAndArguments] at hboth
    simp only [buildPayload]
    rw [if_neg (by rw [hboth]; exact Bool.false_ne_true)]
    by_cases hargs : isJsonObj (alookup fields "arguments") = true
    · rw [if_pos hargs]
      cases hao : alookup fields "arguments" with
      | none => rw [hao] at hargs; exact absurd hargs (by simp [isJsonObj])
      | some a =>
        cases a with
        | obj afields =>
          have hname : alookup fields "name" = none := by
            cases hn : alookup fields "name" with
            | none => rfl
            | some _ =>
              rw [hn, hao] at hboth
              simp at hboth
          simp [payloadInvariant, alookup, hname, hao, htool]
        | null => rw [hao] at hargs; exact absurd hargs (by simp [isJsonObj])
        | bool b => rw [hao] at hargs; exact absurd hargs (by simp [isJsonObj])
        | num n => rw [hao] at hargs; exact absurd hargs (by simp [isJsonObj])
        | str s => rw [hao] at hargs; exact absurd hargs (by simp [isJsonObj])
        | arr es => rw [hao] at hargs; exact absurd hargs (by simp [isJsonObj])
    · rw [if_neg hargs]
      simp [payloadInvariant, alookup, htool]

/-- C7 amended witness: a request with no body yields a well-formed
payload. -/
theorem call_tool_payload_invariant_amended_witness :
    payloadInvariant (call_tool_payload "tool-x" "text/plain" "" none) = true :=
  call_tool_payload_invariant_amended "tool-x" "text/plain" "" none
    (by decide)
    (fun fields h => by
      rw [show computeBodyJson "text/plain" "" none = none from rfl] at h
      exact Option.noConfusion h)

/-! ## `MCPAdapterProxy._get_auth_key` (proxy lines 102–124)

`text.strip().split(None, 1)` is modelled character by character. -/

/-- The whitespace characters of Python `str.strip()` / `str.split(None)`,
i.e. `Py_UNICODE_ISSPACE`: the ASCII runs `\x09`–`\x0d` (tab, newline,
vertical tab, form feed, carriage return) and `\x1c`–`\x1f`, the space,
`\x85` (NEL) and `\xa0` (NBSP), and the Unicode space separators. -/
def isPySpace (c : Char) : Bool :=
  ('\x09' ≤ c && c ≤ '\x0d') || ('\x1c' ≤ c && c ≤ '\x1f') || c = ' ' ||
  c = '\x85' || c = '\xa0' || c = '\u1680' ||
  ('\u2000' ≤ c && c ≤ '\u200a') || c = '\u2028' || c = '\u2029' ||
  c = '\u202f' || c = '\u205f' || c = '\u3000'

/-- Right half of Python `str.strip()`. -/
def pyRStrip (l : List Char) : List Char :=
  (l.reverse.dropWhile isPySpace).reverse

/-- Python `str.strip()`: drop trailing then leading whitespace. -/
def pyStrip (l : List Char) : List Char :=
  (pyRStrip l).dropWhile isPySpace

/-- Python `s.split(None, 1)`: skip leading whitespace, take the first
whitespace-free word, skip the separating whitespace; a second element is
produced only when a non-empty remainder follows. -/
def splitOnce (l : List Char) : List (List Char) :=
  let l1 := l.dropWhile isPySpace
  if l1 = [] then []
  else
    let w := l1.takeWhile (fun c => !isPySpace c)
    let rest := (l1.dropWhile (fun c => !isPySpace c)).dropWhile isPySpace
    if rest = [] then [w] else [w, rest]

/-- The characters of the literal `"Bearer"` compared against `parts[0]`. -/
def bearerChars : List Char := ['B', 'e', 'a', 'r', 'e', 'r']

/-- Method `MCPAdapterProxy._get_auth_key`: the token after the `Bearer` scheme,
or `none` for the raised `ValueError`. -/
def get_auth_key (text : List Char) : Option (List Char) :=
  match splitOnce (pyStrip text) with
  | [p0, p1] => if p0 = bearerChars then some p1 else none
  | _ => none

/-- The credential pattern as claimed, in the words of the spec: the header value
is exactly the case-sensitive scheme `"Bearer"`, one single space, and a
token. -/
def specBearerPattern (text : List Char) : Bool :=
  decide (text.take 7 = bearerChars ++ [' ']) && decide (text.drop 7 ≠ [])

/-! ### Whitespace-splitting lemmas -/

theorem dropWhile_dropWhile (p : Char → Bool) (l : List Char) :
    (l.dropWhile p).dropWhile p = l.dropWhile p := by
  induction l with
  | nil => rfl
  | cons a l ih =>
    by_cases h : p a
    · simp [List.dropWhile_cons, h, ih]
    · simp [List.dropWhile_cons, h]

theorem mem_takeWhile (p : Char → Bool) (l : List Char) :
    ∀ c ∈ l.takeWhile p, p c = true := by
  induction l with
  | nil => intro c hc; simp [List.takeWhile] at hc
  | cons a l ih =>
    intro c hc
    by_cases ha : p a
    · rw [List.takeWhile_cons, if_pos ha] at hc
      rcases List.mem_cons.mp hc with h1 | h2
      · rw [h1]; exact ha
      · exact ih c h2
    · rw [List.takeWhile_cons, if_neg ha] at hc
      exact absurd hc (List.not_mem_nil c)

theorem head?_dropWhile_false (p : Char → Bool) (l : List Char) :
    ∀ c, (l.dropWhile p).head? = some c → p c = false := by
  intro c hc
  have h := List.head?_dropWhile_not p l
  rw [hc] at h
  exact h

theorem bearer_no_space : ∀ c ∈ bearerChars, (!isPySpace c) = true := by
  decide

theorem splitOnce_bearer (ws tok : List Char) (hwsne : ws ≠ [])
    (hws : ∀ c ∈ ws, isPySpace c = true) (htokne : tok ≠ [])
    (hhd : ∀ c, tok.head? = some c → isPySpace c = false) :
    splitOnce (bearerChars ++ ws ++ tok) = [bearerChars, tok] := by
  cases ws with
  | nil => exact absurd rfl hwsne
  | cons w0 ws' =>
    cases tok with
    | nil => exact absurd rfl htokne
    | cons t0 tok' =>
      have hw0 : isPySpace w0 = true := hws w0 (List.mem_cons_self _ _)
      have ht0 : isPySpace t0 = false := hhd t0 rfl
      have hdropars : ((w0 :: ws') ++ t0 :: tok').dropWhile isPySpace = t0 :: tok' := by
        rw [List.dropWhile_append_of_pos (by intro a ha; exact hws a ha)]
        rw [List.dropWhile_cons_of_neg (by rw [ht0]; exact Bool.false_ne_true)]
      unfold splitOnce
      rw [List.append_assoc]
      have hl1 : (bearerChars ++ (w0 :: ws' ++ t0 :: tok')).dropWhile isPySpace =
          bearerChars ++ (w0 :: ws' ++ t0 :: tok') := by
        rw [show bearerChars ++ (w0 :: ws' ++ t0 :: tok') =
          'B' :: (['e', 'a', 'r', 'e', 'r'] ++ (w0 :: ws' ++ t0 :: tok')) from rfl]
        rw [List.dropWhile_cons_of_neg (by decide)]
      rw [hl1]
      rw [if_neg (by simp [bearerChars])]
      have hw : (bearerChars ++ (w0 :: ws' ++ t0 :: tok')).takeWhile
          (fun c => !isPySpace c) = bearerChars := by
        rw [List.takeWhile_append_of_pos bearer_no_space]
        rw [show w0 :: ws' ++ t0 :: tok' = w0 :: (ws' ++ t0 :: tok') from rfl]
        rw [List.takeWhile_cons_of_neg (by rw [hw0]; simp)]
        rw [List.append_nil]
      have hrest : ((bearerChars ++ (w0 :: ws' ++ t0 :: tok')).dropWhile
          (fun c => !isPySpace c)).dropWhile isPySpace = t0 :: tok' := by
        rw [List.dropWhile_append_of_pos bearer_no_space]
        rw [show w0 :: ws' ++ t0 :: tok' = w0 :: (ws' ++ t0 :: tok') from rfl]
        rw [List.dropWhile_cons_of_neg (by rw [hw0]; simp)]
        exact hdropars
      rw [hw, hrest]
      rw [if_neg (by simp)]

/-- C9 amended: extraction succeeds exactly on the values that, once
stripped of leading and trailing whitespace, read as the case-sensitive
word `Bearer`, one or more whitespace characters, and a non-empty token
(which is what is returned) — not only on single-space `"Bearer " + token`
values. -/
theorem get_auth_key_characterization (text tok : List Char) :
    get_auth_key text = some tok ↔
      ∃ ws, pyStrip text = bearerChars ++ ws ++ tok ∧ ws ≠ [] ∧
        (∀ c ∈ ws, isPySpace c = true) ∧ tok ≠ [] ∧
        (∀ c, tok.head? = some c → isPySpace c = false) := by
  constructor
  · intro h
    unfold get_auth_key at h
    have hs : (pyStrip text).dropWhile isPySpace = pyStrip text :=
      dropWhile_dropWhile _ _
    simp only [splitOnce] at h
    rw [hs] at h
    by_cases hnil : pyStrip text = []
    · rw [if_pos hnil] at h
      exact absurd h (by simp)
    · rw [if_neg hnil] at h
      by_cases hrest : ((pyStrip text).dropWhile (fun c => !isPySpace c)).dropWhile
          isPySpace = []
      · rw [if_pos hrest] at h
        exact absurd h (by simp)
      · rw [if_neg hrest] at h
        have h2 : (if (pyStrip text).takeWhile (fun c => !isPySpace c) = bearerChars
            then some (((pyStrip text).dropWhile (fun c => !isPySpace c)).dropWhile isPySpace)
            else none) = some tok := h
        by_cases hw : (pyStrip text).takeWhile (fun c => !isPySpace c) = bearerChars
        · rw [if_pos hw] at h2
          have htok : ((pyStrip text).dropWhile (fun c => !isPySpace c)).dropWhile
              isPySpace = tok := Option.some.inj h2
          refine ⟨((pyStrip text).dropWhile (fun c => !isPySpace c)).takeWhile isPySpace,
            ?_, ?_, mem_takeWhile _ _, ?_, ?_⟩
          · rw [List.append_assoc, ← hw, ← htok]
            rw [List.takeWhile_append_dropWhile, List.takeWhile_append_dropWhile]
          · intro hcon
            have hmne : (pyStrip text).dropWhile (fun c => !isPySpace c) ≠ [] := by
              intro hm
              rw [hm] at hrest
              exact hrest rfl
            cases hm : (pyStrip text).dropWhile (fun c => !isPySpace c) with
            | nil => exact hmne hm
            | cons m0 m' =>
              have hm0 : (!isPySpace m0) = false :=
                head?_dropWhile_false _ (pyStrip text) m0 (by rw [hm]; rfl)
              have hm0' : isPySpace m0 = true := by
                cases hmm : isPySpace m0 with
                | true => rfl
                | false => rw [hmm] at hm0; simp at hm0
              rw [hm, List.takeWhile_cons_of_pos hm0'] at hcon
              exact List.noConfusion hcon
          · rw [← htok]; exact hrest
          · intro c hc
            rw [← htok] at hc
            exact head?_dropWhile_false _ _ c hc
        · rw [if_neg hw] at h2
          exact absurd h2 (by simp)
  · intro ⟨ws, heq, hwsne, hws, htokne, hhd⟩
    unfold get_auth_key
    rw [heq, splitOnce_bearer ws tok hwsne hws htokne hhd]
    simp

/-- C9 amended witness: two separating spaces are accepted and the token
after the whitespace run is returned. -/
theorem get_auth_key_characterization_witness :
    get_auth_key ['B', 'e', 'a', 'r', 'e', 'r', ' ', ' ', 'a', 'b', 'c'] =
      some ['a', 'b', 'c'] :=
  (get_auth_key_characterization _ _).mpr
    ⟨[' ', ' '], by decide, by decide, by decide, by decide, by decide⟩

/-- C9 counterexample: `"Bearer\tabc"` does not match the claimed
single-space `"Bearer " + token` pattern, yet extraction succeeds and
returns `"abc"`. -/
theorem get_auth_key_single_space_counterexample :
    get_auth_key ['B', 'e', 'a', 'r', 'e', 'r', '\t', 'a', 'b', 'c'] =
        some ['a', 'b', 'c'] ∧
      specBearerPattern ['B', 'e', 'a', 'r', 'e', 'r', '\t', 'a', 'b', 'c'] =
        false := by
  decide

/-! ## `nginx/vault.py` — class `VaultClient` -/

/-- What the secrets backend sends back for one request, seen from
`urllib`: a transport-level failure (`URLError`: connection refused,
timeout, DNS), a non-2xx status (`HTTPError`) with its body, or a 2xx
body; `parsed` stands for the outcome of `json.loads(body)`. -/
inductive VaultHttpResponse where
  | transportFailure (msg : String) : VaultHttpResponse
  | httpError (code : Nat) (body : String) : VaultHttpResponse
  | ok (body : String) (parsed : Option Json) : VaultHttpResponse

/-- Method `VaultClient._req` (vault.py lines 35–54): `Except.error` is a raised
`VaultError` carrying its message. -/
def vault_req (url : String) : VaultHttpResponse → Except String Json
  | VaultHttpResponse.httpError code body =>
    Except.error ("HTTP " ++ toString code ++ " for " ++ url ++ ": " ++ body)
  | VaultHttpResponse.transportFailure msg =>
    Except.error ("URL error for " ++ url ++ ": " ++ msg)
  | VaultHttpResponse.ok body parsed =>
    if body = "" then Except.ok (Json.obj [])
    else
      match parsed with
      | some j => Except.ok j
      | none => Except.error ("Non-JSON response from " ++ url)

/-- Python `x[k]`: `none` when `x` is not a dict (TypeError) or the key is
missing (KeyError) — both are exceptions for the caller. -/
def jIndex : Json → String → Option Json
  | Json.obj fields, k => alookup fields k
  | _, _ => none

/-- Python `str()` on a JSON-decoded value, as compared with `"2"` in
`detect_kv_version` and returned by `get_kv`.  Container reprs are
abstracted: a Python list/dict repr starts with a bracket or brace, so it
is never the scalar `"2"`, which is all the code compares against. -/
def pyStr : Json → String
  | Json.null => "None"
  | Json.bool b => if b then "True" else "False"
  | Json.num n => toString n
  | Json.str s => s
  | Json.arr _ => "<list repr>"
  | Json.obj _ => "<dict repr>"

/-- Python truthiness of a JSON-decoded value (`x or {}`). -/
def pyTruthy : Json → Bool
  | Json.null => false
  | Json.bool b => b
  | Json.num n => decide (n ≠ 0)
  | Json.str s => decide (s ≠ "")
  | Json.arr [] => false
  | Json.arr (_ :: _) => true
  | Json.obj [] => false
  | Json.obj (_ :: _) => true

/-- Python `s.strip("/")` used on the mount name. -/
def stripSlash (s : String) : String :=
  String.mk
    (((s.toList.dropWhile (fun c => c = '/')).reverse.dropWhile
      (fun c => c = '/')).reverse)

/-- Method `VaultClient.detect_kv_version` (vault.py lines 56–64): any exception
while digging `resp["data"][mnt + "/"]["options"].get("version", "1")`
falls back to version 1; the `_req` call may itself raise. -/
def detect_kv_version (addr mnt : String) (mountsResp : VaultHttpResponse) :
    Except String Nat :=
  match vault_req (addr ++ "/v1/sys/mounts") mountsResp with
  | Except.error e => Except.error e
  | Except.ok resp =>
    match jIndex resp "data" with
    | none => Except.ok 1
    | some d =>
      match jIndex d (mnt ++ "/") with
      | none => Except.ok 1
      | some m =>
        match jIndex m "options" with
        | some (Json.obj opts) =>
          let version :=
            match alookup opts "version" with
            | some v => pyStr v
            | none => "1"
          Except.ok (if version = "2" then 2 else 1)
        | _ => Except.ok 1

/-- Outcome of `VaultClient.get_kv`: a value string, `None`, a raised
`VaultError`, or an uncaught attribute error (`.get` on a non-dict). -/
inductive VaultOutcome where
  | found (value : String) : VaultOutcome
  | notFound : VaultOutcome
  | vaultError (msg : String) : VaultOutcome
  | pyError : VaultOutcome
deriving DecidableEq

/-- Method `VaultClient.get_kv` (vault.py lines 66–92).  `mountsResp` is the
answer of the backend to the layout-detection request and `secretResp` its
answer to the secret read; `version = some 0` would be falsy in the
Python `version or self.detect_kv_version(mnt)`. -/
def get_kv (addr mount path key : String) (version : Option Nat)
    (mountsResp secretResp : VaultHttpResponse) : VaultOutcome :=
  let mnt := stripSlash mount
  let verE : Except String Nat :=
    match version with
    | some v => if v = 0 then detect_kv_version addr mnt mountsResp else Except.ok v
    | none => detect_kv_version addr mnt mountsResp
  match verE with
  | Except.error e => VaultOutcome.vaultError e
  | Except.ok ver =>
    let api_path :=
      if ver = 2 then "/v1/" ++ mnt ++ "/data/" ++ path
      else "/v1/" ++ mnt ++ "/" ++ path
    match vault_req (addr ++ api_path) secretResp with
    | Except.error e => VaultOutcome.vaultError e
    | Except.ok resp =>
      match resp with
      | Json.obj rfields =>
        let data0 :=
          match alookup rfields "data" with
          | some d => if pyTruthy d then d else Json.obj []
          | none => Json.obj []
        let data :=
          if ver = 2 then
            match data0 with
            | Json.obj dfields =>
              match alookup dfields "data" with
              | some dd => if pyTruthy dd then dd else Json.obj []
              | none => data0
            | _ => data0
          else data0
        match data with
        | Json.obj dfields =>
          match alookup dfields key with
          | none => VaultOutcome.notFound
          | some Json.null => VaultOutcome.notFound
          | some v => VaultOutcome.found (pyStr v)
        | _ => VaultOutcome.pyError
      | _ => VaultOutcome.pyError

/-- Result-shape check: did `get_kv` raise `VaultError`? -/
def isVaultError : VaultOutcome → Bool
  | VaultOutcome.vaultError _ => true
  | _ => false

/-- C8 counterexample: the backend answers the read of a nonexistent path
with HTTP 404 (it responds — no transport failure, nothing unparsable),
and `get_kv` raises `VaultError` instead of resolving to `None`. -/
theorem get_kv_missing_path_counterexample :
    get_kv "http://localhost:8200" "secret" "missing" "k" (some 1)
        (VaultHttpResponse.ok "" none)
        (VaultHttpResponse.httpError 404 "no secret") =
      VaultOutcome.vaultError
        "HTTP 404 for http://localhost:8200/v1/secret/missing: no secret" ∧
    get_kv "http://localhost:8200" "secret" "missing" "k" (some 1)
        (VaultHttpResponse.ok "" none)
        (VaultHttpResponse.httpError 404 "no secret") ≠
      VaultOutcome.notFound := by
  constructor
  · rfl
  · decide

/-- C8 amended: a key absent from the fields of the secret resolves to `None`
(in both KV layouts), and so does a path whose read yields a 200 with no
usable `data`; but a missing path that the backend reports with an HTTP
error status (404) raises `VaultError`, exactly like transport failures
and unparsable responses. -/
theorem get_kv_notfound_vs_error
    (addr mount path key body msg : String)
    (fields : List (String × Json)) (mresp : VaultHttpResponse)
    (hbody : body ≠ "") :
    (alookup fields key = none →
      get_kv addr mount path key (some 1) mresp
        (VaultHttpResponse.ok body (some (Json.obj [("data", Json.obj fields)]))) =
        VaultOutcome.notFound) ∧
    (alookup fields key = none →
      get_kv addr mount path key (some 2) mresp
        (VaultHttpResponse.ok body
          (some (Json.obj [("data", Json.obj [("data", Json.obj fields)])]))) =
        VaultOutcome.notFound) ∧
    get_kv addr mount path key (some 1) mresp
        (VaultHttpResponse.ok body (some (Json.obj []))) = VaultOutcome.notFound ∧
    isVaultError (get_kv addr mount path key (some 1) mresp
        (VaultHttpResponse.httpError 404 body)) = true ∧
    isVaultError (get_kv addr mount path key (some 1) mresp
        (VaultHttpResponse.transportFailure msg)) = true ∧
    isVaultError (get_kv addr mount path key (some 1) mresp
        (VaultHttpResponse.ok body none)) = true := by
  refine ⟨?_, ?_, ?_, ?_, ?_, ?_⟩
  · intro h
    cases fields with
    | nil => simp [get_kv, vault_req, hbody, pyTruthy, alookup]
    | cons f fs =>
      simp only [alookup] at h
      simp [get_kv, vault_req, hbody, pyTruthy, alookup, h]
  · intro h
    cases fields with
    | nil => simp [get_kv, vault_req, hbody, pyTruthy, alookup]
    | cons f fs =>
      simp only [alookup] at h
      simp [get_kv, vault_req, hbody, pyTruthy, alookup, h]
  · simp [get_kv, vault_req, hbody, alookup]
  · simp [get_kv, vault_req, isVaultError]
  · simp [get_kv, vault_req, isVaultError]
  · simp [get_kv, vault_req, isVaultError, hbody]

/-- C8 amended witness: a present path whose secret lacks the requested
field resolves to `None`. -/
theorem get_kv_notfound_vs_error_witness :
    get_kv "http://localhost:8200" "secret" "openwebui" "k" (some 1)
        (VaultHttpResponse.ok "" none)
        (VaultHttpResponse.ok "x"
          (some (Json.obj [("data", Json.obj [("other", Json.str "v")])]))) =
      VaultOutcome.notFound :=
  (get_kv_notfound_vs_error "http://localhost:8200" "secret" "openwebui" "k"
      "x" "m" [("other", Json.str "v")] (VaultHttpResponse.ok "" none)
      (by decide)).1 rfl

/-! ## Authorization forwarding in `call_tool` (proxy lines 126–141 and
252–280) -/

/-- Method `MCPAdapterProxy._fetch_secret_for_authorization`: `none` models a
raised exception — malformed header (`_get_auth_key`), a `VaultError`
from `get_kv`, or `get_kv` returning `None` (explicit `ValueError`).
`vaultGetKv` abstracts `self._vault_client.get_kv(path=self._settings.path,
key=key)` as a function of the extracted key. -/
def fetch_secret_for_authorization (vaultGetKv : List Char → VaultOutcome)
    (authorization : List Char) : Option String :=
  match get_auth_key authorization with
  | none => none
  | some key =>
    match vaultGetKv key with
    | VaultOutcome.found v => some v
    | _ => none

/-- What becomes of one inbound request at the forwarding step:
either `client.post` runs with the headers the handler built, or the
handler raises before reaching upstream and the framework answers the
caller with an error response. -/
inductive ForwardOutcome where
  | upstreamPost (headers : List (String × String)) : ForwardOutcome
  | unboundLocalError : ForwardOutcome
deriving DecidableEq

/-- The Authorization-forwarding step of `call_tool` (lines 252–280): on
successful resolution the local `fwd_headers` is assigned inside the
`try` block and the POST goes upstream with it; when resolution raises,
the `except` block only logs a warning, `fwd_headers` is never assigned,
and the later `client.post(..., headers=fwd_headers)` raises
`UnboundLocalError` — which `except httpx.RequestError` does not catch,
so the handler fails and the caller gets an error response. -/
def call_tool_forward (vaultGetKv : List Char → VaultOutcome)
    (authHeader : List Char) : ForwardOutcome :=
  match fetch_secret_for_authorization vaultGetKv authHeader with
  | some secret =>
    let auth := "Bearer " ++ secret
    let fwd_headers :=
      if auth ≠ "" then
        [("Content-Type", "application/json"), ("Authorization", auth)]
      else [("Content-Type", "application/json")]
    ForwardOutcome.upstreamPost fwd_headers
  | none => ForwardOutcome.unboundLocalError

/-- C1 (code bug): a request whose credential resolution fails — here the
malformed Authorization header `"Token abc"`, whatever the Vault lookup
would say — is not forwarded upstream without an Authorization header:
the handler hits the unassigned `fwd_headers` and errors out, so the
failure is surfaced to the caller. -/
theorem call_tool_forward_failure_not_forwarded
    (vaultGetKv : List Char → VaultOutcome) :
    call_tool_forward vaultGetKv
        ['T', 'o', 'k', 'e', 'n', ' ', 'a', 'b', 'c'] =
      ForwardOutcome.unboundLocalError ∧
    ∀ hs, call_tool_forward vaultGetKv
        ['T', 'o', 'k', 'e', 'n', ' ', 'a', 'b', 'c'] ≠
      ForwardOutcome.upstreamPost hs := by
  constructor
  · rfl
  · intro hs h
    exact ForwardOutcome.noConfusion h
